import Mathlib

/-!
# Shallow embedding of the ASCII-art generator core

This file embeds, in Lean 4, the conversion engine of the
`ascii-art-generator` repository and proves properties of it:

* `src/assets/scripts/image-processor.js` — `clamp`,
  `applyBrightnessContrast` (the tonal adjuster);
* `src/assets/scripts/ascii-converter.js` — `charSets`, `colorPalettes`,
  `convertImageToASCII` (the glyph mapper);
* `src/assets/scripts/main.js` — the output-bitmap dimension computation
  of `handleSavePng` (the raster exporter).

JavaScript numbers are modelled as exact rationals (`ℚ`); `Math.floor`
is `Int.floor`, `Math.round` is Mathlib's `round` (both round half
towards `+∞` on the inputs that arise here); `Math.min`/`Math.max` are
`min`/`max`.  Canvas pixel data returned by `getImageData` is modelled
as a function from co-ordinates to RGBA samples (the resampling that
`drawImage` performs is browser-defined interpolation and is left
abstract); the flat `Uint8ClampedArray` view used by
`applyBrightnessContrast` is modelled as a `List ℚ` of samples in
row-major RGBA order.
-/

namespace AsciiVision

/-! ## image-processor.js -/

/-- Function `clamp` (image-processor.js line 11): clamps a value between 0 and
255, computed as `Math.max(0, Math.min(255, value))`. -/
def clamp (value : ℚ) : ℚ := max 0 (min 255 value)

/-- Numerator of the contrast factor on image-processor.js line 28:
`259 * (contrast + 255)`. -/
def contrastNumerator (contrast : ℚ) : ℚ := 259 * (contrast + 255)

/-- Denominator of the contrast factor on image-processor.js line 28:
`255 * (259 - contrast)`. -/
def contrastDenominator (contrast : ℚ) : ℚ := 255 * (259 - contrast)

/-- The contrast factor of `applyBrightnessContrast`
(image-processor.js line 28):
`(259 * (contrast + 255)) / (255 * (259 - contrast))`. -/
def contrastFactor (contrast : ℚ) : ℚ :=
  contrastNumerator contrast / contrastDenominator contrast

/-- The per-sample transform that one iteration of the loop in
`applyBrightnessContrast` (image-processor.js lines 30–40) applies to
each of the R, G and B samples of a pixel: first
`data[i] = clamp(data[i] + brightness)`, then
`data[i] = clamp(contrastFactor * (data[i] - 128) + 128)` reading the
updated value. -/
def bcChannel (brightness contrast v : ℚ) : ℚ :=
  clamp (contrastFactor contrast * (clamp (v + brightness) - 128) + 128)

/-- The loop of `applyBrightnessContrast` (image-processor.js lines
30–40) over the flat RGBA sample list: it steps through the data four
samples at a time, transforming the R, G and B samples and leaving the
alpha sample alone.  Buffers produced by `getImageData` always have
length `4 * width * height`, so the final catch-all pattern is never
hit on a reachable input.  This version records the exact rational
value of the two stored expressions and omits the per-store byte
rounding that the `Uint8ClampedArray` performs; it is used only where
that rounding is immaterial (identity at brightness 0 / contrast 0,
where every stored value is already an in-range integer, and alpha
preservation, where nothing is stored at all).  The faithful
byte-level loop is `applyBrightnessContrastBytes` below. -/
def applyBrightnessContrastData (brightness contrast : ℚ) :
    List ℚ → List ℚ
  | r :: g :: b :: a :: rest =>
      bcChannel brightness contrast r :: bcChannel brightness contrast g ::
        bcChannel brightness contrast b :: a ::
        applyBrightnessContrastData brightness contrast rest
  | l => l

/-- The `ToUint8Clamp` abstract operation that every store into a
`Uint8ClampedArray` performs on the written value (ECMAScript
§ToUint8Clamp): clamp to `[0, 255]`, then round to the nearest
integer, ties going to the even neighbour. -/
def toUint8Clamp (x : ℚ) : ℚ :=
  if x ≤ 0 then 0
  else if 255 ≤ x then 255
  else
    let f := ⌊x⌋
    if (f : ℚ) + 1 / 2 < x then ((f + 1 : ℤ) : ℚ)
    else if x < (f : ℚ) + 1 / 2 then (f : ℚ)
    else if f % 2 = 0 then (f : ℚ) else ((f + 1 : ℤ) : ℚ)

/-- The byte value actually held by an R, G or B sample after one
iteration of the loop in `applyBrightnessContrast`
(image-processor.js lines 30–40): each of the two assignments
`data[i] = clamp(...)` stores into a `Uint8ClampedArray`, so the
written value passes through `toUint8Clamp`.  The contrast step reads
back the rounded byte stored by the brightness step. -/
def bcChannelByte (brightness contrast v : ℚ) : ℚ :=
  toUint8Clamp (clamp (contrastFactor contrast *
    (toUint8Clamp (clamp (v + brightness)) - 128) + 128))

/-- The loop of `applyBrightnessContrast` (image-processor.js lines
30–40) over the flat RGBA byte buffer, including the `toUint8Clamp`
rounding performed by every typed-array store: the faithful byte-level
model of the tonal adjuster. -/
def applyBrightnessContrastBytes (brightness contrast : ℚ) :
    List ℚ → List ℚ
  | r :: g :: b :: a :: rest =>
      bcChannelByte brightness contrast r ::
        bcChannelByte brightness contrast g ::
        bcChannelByte brightness contrast b :: a ::
        applyBrightnessContrastBytes brightness contrast rest
  | l => l

/-! ## ascii-converter.js : constant tables -/

/-- Table `charSets` (ascii-converter.js lines 7–14) as a key lookup; an
unknown key yields `none`, modelling JavaScript's `undefined`. -/
def charSets (key : String) : Option (List String) :=
  if key = "dense" then
    some ["@", "#", "$", "%", "&", "*", "+", "-", ":", ".", " "]
  else if key = "medium" then
    some ["#", "$", "%", "*", "+", "-", ":", ".", " "]
  else if key = "light" then
    some ["▓", "▒", "░", ":", ".", " "]
  else if key = "blocks" then
    some ["█", "▄", "▌", "▐", "·", " "]
  else if key = "simple" then
    some ["@", "*", ".", " "]
  else if key = "retro" then
    some ["║", "═", "╔", "╗", "╚", "╝", " ", " "]
  else none

/-- A colour triple as produced by the palette functions
(ascii-converter.js lines 17–61). -/
structure RGBColor where
  r : ℚ
  g : ℚ
  b : ℚ
  deriving DecidableEq, Repr

/-- The luminosity formula `r * 0.299 + g * 0.587 + b * 0.114` used by
every palette (ascii-converter.js lines 20 ff.) and by the glyph loop
(line 131). -/
def luminance (r g b : ℚ) : ℚ := r * 0.299 + g * 0.587 + b * 0.114

/-- Palette `original` (ascii-converter.js line 18). -/
def paletteOriginal (r g b : ℚ) : RGBColor := ⟨r, g, b⟩

/-- Palette `matrix` (ascii-converter.js lines 19–22). -/
def paletteMatrix (r g b : ℚ) : RGBColor :=
  let brightness := luminance r g b
  ⟨0, (⌊brightness⌋ : ℚ), 0⟩

/-- Palette `amber` (ascii-converter.js lines 23–26). -/
def paletteAmber (r g b : ℚ) : RGBColor :=
  let brightness := luminance r g b
  ⟨(⌊brightness⌋ : ℚ), (⌊brightness * 0.7⌋ : ℚ), 0⟩

/-- Palette `cyan` (ascii-converter.js lines 27–30). -/
def paletteCyan (r g b : ℚ) : RGBColor :=
  let brightness := luminance r g b
  ⟨0, (⌊brightness * 0.8⌋ : ℚ), (⌊brightness⌋ : ℚ)⟩

/-- Palette `fire` (ascii-converter.js lines 31–39). -/
def paletteFire (r g b : ℚ) : RGBColor :=
  let brightness := luminance r g b
  let normalized := brightness / 255
  ⟨(⌊brightness⌋ : ℚ), (⌊brightness * normalized * 0.5⌋ : ℚ), 0⟩

/-- Palette `ice` (ascii-converter.js lines 40–48). -/
def paletteIce (r g b : ℚ) : RGBColor :=
  let brightness := luminance r g b
  ⟨(⌊brightness * 0.6⌋ : ℚ), (⌊brightness * 0.8⌋ : ℚ), (⌊brightness⌋ : ℚ)⟩

/-- Palette `purple` (ascii-converter.js lines 49–56). -/
def palettePurple (r g b : ℚ) : RGBColor :=
  let brightness := luminance r g b
  ⟨(⌊brightness * 0.8⌋ : ℚ), (⌊brightness * 0.3⌋ : ℚ), (⌊brightness⌋ : ℚ)⟩

/-- Palette `grayscale` (ascii-converter.js lines 57–60). -/
def paletteGrayscale (r g b : ℚ) : RGBColor :=
  let gray := (⌊luminance r g b⌋ : ℚ)
  ⟨gray, gray, gray⟩

/-- Table `colorPalettes` (ascii-converter.js lines 17–61) as a key lookup;
an unknown key yields `none`. -/
def colorPalettes (key : String) : Option (ℚ → ℚ → ℚ → RGBColor) :=
  if key = "original" then some paletteOriginal
  else if key = "matrix" then some paletteMatrix
  else if key = "amber" then some paletteAmber
  else if key = "cyan" then some paletteCyan
  else if key = "fire" then some paletteFire
  else if key = "ice" then some paletteIce
  else if key = "purple" then some palettePurple
  else if key = "grayscale" then some paletteGrayscale
  else none

/-- The lookup `colorPalettes[colorPalette] || colorPalettes.original`
on ascii-converter.js line 150: an unknown palette key silently falls
back to the `original` palette. -/
def paletteLookup (key : String) : ℚ → ℚ → ℚ → RGBColor :=
  match colorPalettes key with
  | some f => f
  | none => paletteOriginal

/-! ## ascii-converter.js : convertImageToASCII -/

/-- One RGBA pixel as returned by `getImageData`. -/
structure RGBA where
  r : ℚ
  g : ℚ
  b : ℚ
  a : ℚ
  deriving DecidableEq, Repr

/-- All four samples of a pixel lie in the byte range `[0, 255]`, as
`getImageData` guarantees. -/
def RGBA.InRange (p : RGBA) : Prop :=
  0 ≤ p.r ∧ p.r ≤ 255 ∧ 0 ≤ p.g ∧ p.g ≤ 255 ∧
    0 ≤ p.b ∧ p.b ≤ 255 ∧ 0 ≤ p.a ∧ p.a ≤ 255

/-- The options object destructured on ascii-converter.js lines 77–85. -/
structure Options where
  outputWidth : ℕ
  brightness : ℚ
  contrast : ℚ
  charSetKey : String
  isColorMode : Bool
  isInverted : Bool
  colorPalette : String

/-- The value `canvas.height` (ascii-converter.js lines 91–93):
`Math.floor(image.height * (outputWidth / image.width))`.  For
`image.width = 0` rational division by zero yields `0`, matching the
browser, where the non-finite result coerces to `0` when assigned to
`canvas.height`. -/
def targetHeight (imageWidth imageHeight outputWidth : ℕ) : ℕ :=
  (⌊(imageHeight : ℚ) * ((outputWidth : ℚ) / (imageWidth : ℚ))⌋).toNat

/-- The character index computed on ascii-converter.js lines 130–143:
luminance, normalisation by 255, optional inversion, then
`Math.floor(normalisedBrightness * (selectedCharSet.length - 1))`. -/
def charIndex (setLength : ℕ) (isInverted : Bool) (r g b : ℚ) : ℤ :=
  let brightnessValue := luminance r g b
  let normalisedBrightness := brightnessValue / 255
  let normalisedBrightness :=
    if isInverted then 1 - normalisedBrightness else normalisedBrightness
  ⌊normalisedBrightness * ((setLength : ℚ) - 1)⌋

/-- Array indexing `selectedCharSet[charIndex]` (ascii-converter.js
line 144): an out-of-range index yields JavaScript `undefined`, which
string concatenation renders as `"undefined"`. -/
def charAt (set : List String) (idx : ℤ) : String :=
  if h : 0 ≤ idx ∧ idx.toNat < set.length then set.get ⟨idx.toNat, h.2⟩
  else "undefined"

/-- The character appended for one pixel (ascii-converter.js lines
126–145). -/
def cellChar (set : List String) (isInverted : Bool) (p : RGBA) : String :=
  charAt set (charIndex set.length isInverted p.r p.g p.b)

/-- The tonal-adjustment step of `convertImageToASCII`
(ascii-converter.js lines 101–112): when `brightness ≠ 0` or
`contrast ≠ 0`, `applyBrightnessContrast` rewrites every pixel's R, G
and B samples through `bcChannel` and leaves alpha alone; otherwise
the canvas is untouched. -/
def adjustedPx (brightness contrast : ℚ) (px : ℕ → ℕ → RGBA) :
    ℕ → ℕ → RGBA :=
  if brightness ≠ 0 ∨ contrast ≠ 0 then
    fun x y =>
      ⟨bcChannel brightness contrast (px x y).r,
        bcChannel brightness contrast (px x y).g,
        bcChannel brightness contrast (px x y).b,
        (px x y).a⟩
  else px

/-- One scanline of the `ascii` accumulator (ascii-converter.js lines
124–159): `asciiRowString set inv px y w` is the concatenation
`cellChar(px 0 y) ++ cellChar(px 1 y) ++ ⋯ ++ cellChar(px (w-1) y)`,
built left to right exactly as the `ascii += char` loop does. -/
def asciiRowString (set : List String) (isInverted : Bool)
    (px : ℕ → ℕ → RGBA) (y : ℕ) : ℕ → String
  | 0 => ""
  | x + 1 =>
      asciiRowString set isInverted px y x ++
        cellChar set isInverted (px x y)

/-- The list of scanlines of the output, top to bottom
(ascii-converter.js outer loop, lines 122–164). -/
def asciiRows (set : List String) (isInverted : Bool)
    (px : ℕ → ℕ → RGBA) (width height : ℕ) : List String :=
  (List.range height).map fun y => asciiRowString set isInverted px y width

/-- The full `ascii` string: each scanline followed by the `"\n"`
appended on ascii-converter.js line 160. -/
def asciiText (set : List String) (isInverted : Bool)
    (px : ℕ → ℕ → RGBA) (width height : ℕ) : String :=
  String.join ((asciiRows set isInverted px width height).map (· ++ "\n"))

/-- One entry of `colorData` (ascii-converter.js lines 148–158):
the character together with the palette-transformed colour of the
pixel. -/
structure ColorCell where
  char : String
  r : ℚ
  g : ℚ
  b : ℚ
  deriving DecidableEq, Repr

/-- The `colorData` rows built when `isColorMode` is set
(ascii-converter.js lines 146–163). -/
def colorRows (paletteKey : String) (set : List String)
    (isInverted : Bool) (px : ℕ → ℕ → RGBA) (width height : ℕ) :
    List (List ColorCell) :=
  (List.range height).map fun y =>
    (List.range width).map fun x =>
      let p := px x y
      let transformedColor := paletteLookup paletteKey p.r p.g p.b
      ⟨cellChar set isInverted p,
        transformedColor.r, transformedColor.g, transformedColor.b⟩

/-- The exceptions the conversion can raise at runtime:
`getImageData` throws an `IndexSizeError` when the canvas has zero
width or height, and reading `.length` of the `undefined` returned by
`charSets[key]` for an unknown key throws a `TypeError`. -/
inductive JsError where
  | indexSizeError : JsError
  | typeError : JsError
  deriving DecidableEq, Repr

/-- The result object returned on ascii-converter.js lines 166–170
(the `processedCanvas` field is the canvas handle, irrelevant here). -/
structure ConvertResult where
  ascii : String
  colorData : Option (List (List ColorCell))
  deriving DecidableEq, Repr

/-- Function `convertImageToASCII` (ascii-converter.js lines 76–171).  `px`
gives the canvas contents after `drawImage` has resampled the source
image to `outputWidth × targetHeight` (the interpolation itself is
browser-defined and left abstract).  The function performs no input
validation: a zero-sized canvas makes `getImageData` (line 115) throw
an `IndexSizeError` before the loop runs, and an unknown character-set
key makes the first loop iteration throw a `TypeError` on
`selectedCharSet.length`; an unknown colour-palette key is silently
replaced by `original` inside `paletteLookup`. -/
def convertImageToASCII (px : ℕ → ℕ → RGBA)
    (imageWidth imageHeight : ℕ) (o : Options) :
    Except JsError ConvertResult :=
  let canvasWidth := o.outputWidth
  let canvasHeight := targetHeight imageWidth imageHeight o.outputWidth
  if canvasWidth = 0 ∨ canvasHeight = 0 then
    Except.error JsError.indexSizeError
  else
    match charSets o.charSetKey with
    | none => Except.error JsError.typeError
    | some set =>
        let apx := adjustedPx o.brightness o.contrast px
        Except.ok
          { ascii := asciiText set o.isInverted apx canvasWidth canvasHeight
            colorData :=
              if o.isColorMode then
                some (colorRows o.colorPalette set o.isInverted apx
                  canvasWidth canvasHeight)
              else none }

/-! ## main.js : handleSavePng bitmap dimensions -/

/-- The output-bitmap dimension computation of `handleSavePng`
(main.js lines 257–307), as the pair
`(canvas.width, canvas.height)`.  All branch results are integral, and
the assignment to the canvas truncates, hence the final `Int.floor`. -/
def pngCanvasDims (maxLineLength lineCount : ℕ) : ℤ × ℤ :=
  let baseFontSize : ℚ := 10
  let baseCharWidth : ℚ := baseFontSize * 0.6
  let baseLineHeight : ℚ := baseFontSize
  let padding : ℚ := 100
  let naturalWidth : ℚ := (maxLineLength : ℚ) * baseCharWidth + padding
  let naturalHeight : ℚ := (lineCount : ℚ) * baseLineHeight + padding
  let minDimension : ℚ := 600
  let maxDimension : ℚ := 1200
  let aspectRatio : ℚ := naturalWidth / naturalHeight
  let dims : ℚ × ℚ :=
    if naturalWidth > maxDimension ∨ naturalHeight > maxDimension then
      if naturalWidth > naturalHeight then
        let finalWidth := min naturalWidth maxDimension
        (finalWidth, (round (finalWidth / aspectRatio) : ℤ))
      else
        let finalHeight := min naturalHeight maxDimension
        ((round (finalHeight * aspectRatio) : ℤ), finalHeight)
    else if naturalWidth < minDimension ∧ naturalHeight < minDimension then
      if naturalWidth > naturalHeight then
        let finalWidth := minDimension
        (finalWidth, (round (finalWidth / aspectRatio) : ℤ))
      else
        let finalHeight := minDimension
        ((round (finalHeight * aspectRatio) : ℤ), finalHeight)
    else
      ((round naturalWidth : ℤ), (round naturalHeight : ℤ))
  (⌊dims.1⌋, ⌊dims.2⌋)

/-- The font size chosen by `handleSavePng` (main.js lines 309–323):
`Math.max(6, Math.min(maxFontSizeByWidth, maxFontSizeByHeight, 12))`. -/
def pngFontSize (maxLineLength lineCount : ℕ) : ℤ :=
  let dims := pngCanvasDims maxLineLength lineCount
  let availableWidth : ℚ := (dims.1 : ℚ) - 100
  let availableHeight : ℚ := (dims.2 : ℚ) - 100
  let maxFontSizeByWidth := ⌊availableWidth / (maxLineLength : ℚ) / 0.6⌋
  let maxFontSizeByHeight := ⌊availableHeight / (lineCount : ℚ)⌋
  max 6 (min (min maxFontSizeByWidth maxFontSizeByHeight) 12)

/-! ## Shared helper lemmas -/

lemma clamp_nonneg (v : ℚ) : 0 ≤ clamp v := le_max_left 0 _

lemma clamp_le (v : ℚ) : clamp v ≤ 255 :=
  max_le (by norm_num) (min_le_left 255 v)

lemma clamp_eq_self {v : ℚ} (h0 : 0 ≤ v) (h1 : v ≤ 255) : clamp v = v := by
  unfold clamp
  rw [min_eq_right h1, max_eq_right h0]

lemma bcChannel_nonneg (brightness contrast v : ℚ) :
    0 ≤ bcChannel brightness contrast v := clamp_nonneg _

lemma bcChannel_le (brightness contrast v : ℚ) :
    bcChannel brightness contrast v ≤ 255 := clamp_le _

lemma luminance_nonneg {r g b : ℚ} (hr : 0 ≤ r) (hg : 0 ≤ g) (hb : 0 ≤ b) :
    0 ≤ luminance r g b := by
  unfold luminance
  nlinarith

lemma luminance_le {r g b : ℚ} (hr : r ≤ 255) (hg : g ≤ 255) (hb : b ≤ 255) :
    luminance r g b ≤ 255 := by
  unfold luminance
  nlinarith

lemma contrastFactor_zero : contrastFactor 0 = 1 := by
  norm_num [contrastFactor, contrastNumerator, contrastDenominator]

lemma bcChannel_zero_zero {v : ℚ} (h0 : 0 ≤ v) (h1 : v ≤ 255) :
    bcChannel 0 0 v = v := by
  unfold bcChannel
  rw [contrastFactor_zero, add_zero, clamp_eq_self h0 h1]
  have : (1 : ℚ) * (v - 128) + 128 = v := by ring
  rw [this, clamp_eq_self h0 h1]

lemma charIndex_nonneg {L : ℕ} (hL : 1 ≤ L) (inv : Bool) {r g b : ℚ}
    (hr : 0 ≤ r) (hr' : r ≤ 255) (hg : 0 ≤ g) (hg' : g ≤ 255)
    (hb : 0 ≤ b) (hb' : b ≤ 255) :
    0 ≤ charIndex L inv r g b := by
  unfold charIndex
  have h0 := luminance_nonneg hr hg hb
  have h1 := luminance_le hr' hg' hb'
  apply Int.le_floor.mpr
  push_cast
  have hlen : (0:ℚ) ≤ (L:ℚ) - 1 := by
    have : (1:ℚ) ≤ (L:ℚ) := by exact_mod_cast hL
    linarith
  rcases inv with _ | _ <;> simp only [Bool.false_eq_true, if_false, if_true]
  · have : 0 ≤ luminance r g b / 255 := by positivity
    nlinarith
  · have : luminance r g b / 255 ≤ 1 := by
      rw [div_le_one (by norm_num)]; exact h1
    nlinarith

lemma charIndex_lt {L : ℕ} (hL : 1 ≤ L) (inv : Bool) {r g b : ℚ}
    (hr : 0 ≤ r) (hr' : r ≤ 255) (hg : 0 ≤ g) (hg' : g ≤ 255)
    (hb : 0 ≤ b) (hb' : b ≤ 255) :
    charIndex L inv r g b < (L : ℤ) := by
  unfold charIndex
  have h0 := luminance_nonneg hr hg hb
  have h1 := luminance_le hr' hg' hb'
  have hnb0 : 0 ≤ luminance r g b / 255 := by positivity
  have hnb1 : luminance r g b / 255 ≤ 1 := by
    rw [div_le_one (by norm_num)]; exact h1
  have hlen : (0:ℚ) ≤ (L:ℚ) - 1 := by
    have : (1:ℚ) ≤ (L:ℚ) := by exact_mod_cast hL
    linarith
  have key : (if inv then 1 - luminance r g b / 255 else luminance r g b / 255) *
      ((L:ℚ) - 1) ≤ (L:ℚ) - 1 := by
    rcases inv with _ | _ <;> simp only [Bool.false_eq_true, if_false, if_true] <;> nlinarith
  calc ⌊(if inv then 1 - luminance r g b / 255 else luminance r g b / 255) * ((L:ℚ) - 1)⌋
      ≤ ⌊(L:ℚ) - 1⌋ := Int.floor_le_floor key
    _ < (L : ℤ) := by
        rw [show ((L:ℚ) - 1) = (((L:ℤ) - 1 : ℤ) : ℚ) by push_cast; ring, Int.floor_intCast]
        omega

lemma charSets_entries {key : String} {set : List String}
    (h : charSets key = some set) :
    1 ≤ set.length ∧ ∀ c ∈ set, c.length = 1 := by
  unfold charSets at h
  split_ifs at h <;> cases h <;> decide

lemma charAt_mem {set : List String} {idx : ℤ} (h0 : 0 ≤ idx)
    (h1 : idx < (set.length : ℤ)) : charAt set idx ∈ set := by
  unfold charAt
  have hlt : idx.toNat < set.length := by omega
  rw [dif_pos ⟨h0, hlt⟩]
  exact set.get_mem _ _

/-! ## Theorems about the claims -/

/-- C6 (counterexample): contrary to the claim, `contrast = -255` does
not zero the denominator `255 * (259 - contrast)` of the contrast
factor: the denominator evaluates to `131070` there. -/
theorem contrast_neg255_denominator_nonzero :
    contrastDenominator (-255) = 131070 ∧ ¬ contrastDenominator (-255) = 0 := by
  constructor
  · norm_num [contrastDenominator]
  · norm_num [contrastDenominator]

/-- C6 (amended): the denominator of the contrast-factor formula
vanishes at `contrast = 259`, not at `contrast = -255`; at
`contrast = -255` the numerator vanishes instead, so the factor is
`0`. -/
theorem contrast_denominator_zero_at_259 :
    contrastDenominator 259 = 0 ∧ contrastNumerator (-255) = 0 ∧
      contrastFactor (-255) = 0 := by
  refine ⟨by norm_num [contrastDenominator], by norm_num [contrastNumerator], ?_⟩
  norm_num [contrastFactor, contrastNumerator, contrastDenominator]

/-- C4 (counterexample): for a 1×1 glyph grid (`maxLineLength = 1`,
`lineCount = 1`) the exported bitmap is 578×600: its width is below
the claimed 600-pixel minimum. -/
theorem png_1x1_width_below_600 :
    pngCanvasDims 1 1 = (578, 600) ∧ (pngCanvasDims 1 1).1 < 600 := by
  have h : pngCanvasDims 1 1 = (578, 600) := by
    unfold pngCanvasDims
    norm_num [round_eq]
  exact ⟨h, by rw [h]; norm_num⟩

/-- C4 (amended): the raster exporter on a 1×1 grid (a total function
in this model, so it cannot raise) returns a 578×600 bitmap: only the
larger axis is clamped up to the 600-pixel minimum bound; the smaller
axis is scaled by the aspect ratio and may fall below 600. -/
theorem png_1x1_larger_axis_at_least_600 :
    pngCanvasDims 1 1 = (578, 600) ∧
      600 ≤ max (pngCanvasDims 1 1).1 (pngCanvasDims 1 1).2 := by
  have h : pngCanvasDims 1 1 = (578, 600) := by
    unfold pngCanvasDims
    norm_num [round_eq]
  exact ⟨h, by rw [h]; norm_num⟩

/-- C2: for every built-in character set and every pixel whose R, G
and B samples lie in `[0, 255]`, with or without inversion, the
computed character index lies in `[0, length - 1]`, so the
character-set lookup never goes out of bounds even though the code has
no explicit upper clamp. -/
theorem char_index_in_bounds (key : String) (set : List String)
    (hset : charSets key = some set) (inv : Bool) (r g b : ℚ)
    (hr : 0 ≤ r) (hr' : r ≤ 255) (hg : 0 ≤ g) (hg' : g ≤ 255)
    (hb : 0 ≤ b) (hb' : b ≤ 255) :
    0 ≤ charIndex set.length inv r g b ∧
      charIndex set.length inv r g b ≤ (set.length : ℤ) - 1 ∧
      charAt set (charIndex set.length inv r g b) ∈ set := by
  have hL := (charSets_entries hset).1
  have h0 := charIndex_nonneg hL inv hr hr' hg hg' hb hb'
  have h1 := charIndex_lt hL inv hr hr' hg hg' hb hb'
  exact ⟨h0, by omega, charAt_mem h0 h1⟩

/-- C2 (witness): concrete instance at the `simple` character set and
a solid-white pixel, the luminance-1.0 edge case: the index is in
bounds. -/
theorem char_index_in_bounds_witness :
    0 ≤ charIndex 4 false 255 255 255 ∧
      charIndex 4 false 255 255 255 ≤ (4 : ℤ) - 1 ∧
      charAt ["@", "*", ".", " "] (charIndex 4 false 255 255 255) ∈
        ["@", "*", ".", " "] := by
  have h := char_index_in_bounds "simple" ["@", "*", ".", " "] rfl false
    255 255 255 (by norm_num) (by norm_num) (by norm_num) (by norm_num)
    (by norm_num) (by norm_num)
  simpa using h

/-- C3 (counterexample): the claimed exact replacement formula ignores
the byte rounding performed by each `Uint8ClampedArray` store.  At the
green sample `v = 20` with `brightness = 5` and `contrast = 10`, the
claimed formula `clamp(factor * (clamp(v + 5) - 128) + 128)` (which is
`bcChannel`) evaluates to `211591/12699 ≈ 16.662`, while the program's
buffer actually holds the rounded byte `17`. -/
theorem tonal_adjust_exact_formula_cex :
    (applyBrightnessContrastBytes 5 10 [10, 20, 30, 40]).get? 1 = some 17 ∧
      bcChannel 5 10 20 = 211591 / 12699 ∧
      (17 : ℚ) ≠ 211591 / 12699 := by
  have hfac : contrastFactor 10 = 13727 / 12699 := by
    norm_num [contrastFactor, contrastNumerator, contrastDenominator]
  have hinner : toUint8Clamp (clamp ((20 : ℚ) + 5)) = 25 := by
    norm_num [toUint8Clamp, clamp]
  have hb : bcChannelByte 5 10 20 = 17 := by
    rw [bcChannelByte, hinner, hfac]
    norm_num [toUint8Clamp, clamp]
  refine ⟨?_, ?_, by norm_num⟩
  · simp only [applyBrightnessContrastBytes, List.get?]
    rw [hb]
  · rw [bcChannel, hfac]
    norm_num [clamp]

/-- C3 (amended): `applyBrightnessContrast` rewrites every R, G and B
sample `v` of the buffer (the samples whose flat index is not
`3 mod 4`) to the byte
`toUint8Clamp(clamp(factor * (toUint8Clamp(clamp(v + brightness)) - 128) + 128))`
with `factor = (259 * (contrast + 255)) / (255 * (259 - contrast))`:
the claimed clamp formula composed with the round-to-nearest(-even)
byte conversion that each of the two typed-array stores performs, with
brightness applied and stored first and contrast second, per
`bcChannelByte`. -/
theorem tonal_adjust_rgb_byte_formula (brightness contrast : ℚ)
    (data : List ℚ) (i : ℕ) (hlen : 4 ∣ data.length) (hi : i % 4 ≠ 3) :
    (applyBrightnessContrastBytes brightness contrast data).get? i
      = (data.get? i).map (bcChannelByte brightness contrast) := by
  induction data using applyBrightnessContrastBytes.induct brightness contrast
    generalizing i with
  | case1 r g b a rest ih =>
      have hrest : 4 ∣ rest.length := by
        simp only [List.length_cons] at hlen
        omega
      match i, hi with
      | 0, _ => simp [applyBrightnessContrastBytes]
      | 1, _ => simp [applyBrightnessContrastBytes]
      | 2, _ => simp [applyBrightnessContrastBytes]
      | 3, h3 => exact absurd rfl h3
      | (n+4), hn =>
          simp only [applyBrightnessContrastBytes, List.get?]
          exact ih n hrest (by omega)
  | case2 l h =>
      rcases l with _ | ⟨x, _ | ⟨y, _ | ⟨z, _ | ⟨w, rest⟩⟩⟩⟩
      · simp [applyBrightnessContrastBytes]
      · simp only [List.length_cons, List.length_nil] at hlen; omega
      · simp only [List.length_cons, List.length_nil] at hlen; omega
      · simp only [List.length_cons, List.length_nil] at hlen; omega
      · exact absurd rfl (h x y z w rest)

/-- C3 (witness): concrete instance on a single RGBA pixel
`[10, 20, 30, 40]` with brightness 5 and contrast 10, at the green
sample (index 1). -/
theorem tonal_adjust_rgb_byte_formula_witness :
    (applyBrightnessContrastBytes 5 10 [10, 20, 30, 40]).get? 1
      = (([10, 20, 30, 40] : List ℚ).get? 1).map (bcChannelByte 5 10) :=
  tonal_adjust_rgb_byte_formula 5 10 [10, 20, 30, 40] 1
    (by decide) (by decide)

/-- C9: `applyBrightnessContrast` never touches an alpha sample: every
entry of the buffer whose flat index is `3 mod 4` is returned
unchanged, for all brightness and contrast values. -/
theorem tonal_adjust_alpha_untouched (brightness contrast : ℚ)
    (data : List ℚ) (i : ℕ) (hi : i % 4 = 3) :
    (applyBrightnessContrastData brightness contrast data).get? i
      = data.get? i := by
  induction data using applyBrightnessContrastData.induct brightness contrast
    generalizing i with
  | case1 r g b a rest ih =>
      match i, hi with
      | 3, _ => simp [applyBrightnessContrastData]
      | (n+4), hn =>
          simp only [applyBrightnessContrastData, List.get?]
          exact ih n (by omega)
  | case2 l h =>
      rcases l with _ | ⟨x, _ | ⟨y, _ | ⟨z, _ | ⟨w, rest⟩⟩⟩⟩
      · rfl
      · rfl
      · rfl
      · rfl
      · exact absurd rfl (h x y z w rest)

/-- C9 (witness): concrete instance at the alpha sample (index 3) of a
single RGBA pixel. -/
theorem tonal_adjust_alpha_untouched_witness :
    (applyBrightnessContrastData 5 10 [10, 20, 30, 40]).get? 3
      = ([10, 20, 30, 40] : List ℚ).get? 3 :=
  tonal_adjust_alpha_untouched 5 10 [10, 20, 30, 40] 3 (by decide)

/-- C8: with `brightness = 0` and `contrast = 0` the tonal adjustment
is the identity: the contrast factor is exactly 1, the whole buffer
transform returns every in-range buffer unchanged, and the skip
performed by `convertImageToASCII` (`adjustedPx` leaves the canvas
untouched) is therefore observationally equivalent to running the
adjuster. -/
theorem tonal_adjust_identity_at_zero (data : List ℚ)
    (h : ∀ v ∈ data, 0 ≤ v ∧ v ≤ 255) :
    contrastFactor 0 = 1 ∧
      applyBrightnessContrastData 0 0 data = data ∧
      ∀ px : ℕ → ℕ → RGBA, adjustedPx 0 0 px = px := by
  refine ⟨contrastFactor_zero, ?_, ?_⟩
  · induction data using applyBrightnessContrastData.induct 0 0 with
    | case1 r g b a rest ih =>
        have hr := h r (by simp)
        have hg := h g (by simp)
        have hb := h b (by simp)
        have hrest : ∀ v ∈ rest, 0 ≤ v ∧ v ≤ 255 := fun v hv => h v (by simp [hv])
        simp only [applyBrightnessContrastData,
          bcChannel_zero_zero hr.1 hr.2, bcChannel_zero_zero hg.1 hg.2,
          bcChannel_zero_zero hb.1 hb.2, ih hrest]
    | case2 l hl =>
        rcases l with _ | ⟨x, _ | ⟨y, _ | ⟨z, _ | ⟨w, rest⟩⟩⟩⟩
        · rfl
        · rfl
        · rfl
        · rfl
        · exact absurd rfl (hl x y z w rest)
  · intro px
    unfold adjustedPx
    simp

/-- C8 (witness): concrete instance on the buffer `[0, 128, 255, 7]`. -/
theorem tonal_adjust_identity_at_zero_witness :
    contrastFactor 0 = 1 ∧
      applyBrightnessContrastData 0 0 [0, 128, 255, 7] = [0, 128, 255, 7] ∧
      ∀ px : ℕ → ℕ → RGBA, adjustedPx 0 0 px = px :=
  tonal_adjust_identity_at_zero [0, 128, 255, 7] (by decide)

/-! ## Palette range (C7) -/

/-- A JavaScript number holding an integer in the 8-bit range. -/
def IsByte (q : ℚ) : Prop := (∃ m : ℤ, q = (m : ℚ)) ∧ 0 ≤ q ∧ q ≤ 255

lemma isByte_floor {x : ℚ} (h0 : 0 ≤ x) (h1 : x ≤ 255) :
    IsByte ((⌊x⌋ : ℤ) : ℚ) := by
  refine ⟨⟨⌊x⌋, rfl⟩, ?_, ?_⟩
  · exact_mod_cast Int.floor_nonneg.mpr h0
  · exact le_trans (Int.floor_le x) h1

lemma isByte_zero : IsByte 0 := ⟨⟨0, by norm_num⟩, by norm_num, by norm_num⟩

/-- C7: every built-in colour palette, applied to integer channel
values in `[0, 255]`, returns a colour whose three channels are again
integers in `[0, 255]`. -/
theorem palette_outputs_byte_range (key : String) (f : ℚ → ℚ → ℚ → RGBColor)
    (hf : colorPalettes key = some f) (r g b : ℚ)
    (hri : ∃ m : ℤ, r = (m : ℚ)) (hgi : ∃ m : ℤ, g = (m : ℚ))
    (hbi : ∃ m : ℤ, b = (m : ℚ))
    (hr0 : 0 ≤ r) (hr1 : r ≤ 255) (hg0 : 0 ≤ g) (hg1 : g ≤ 255)
    (hb0 : 0 ≤ b) (hb1 : b ≤ 255) :
    IsByte (f r g b).r ∧ IsByte (f r g b).g ∧ IsByte (f r g b).b := by
  have hl0 : 0 ≤ luminance r g b := luminance_nonneg hr0 hg0 hb0
  have hl1 : luminance r g b ≤ 255 := luminance_le hr1 hg1 hb1
  unfold colorPalettes at hf
  split_ifs at hf <;> cases hf
  · exact ⟨⟨hri, hr0, hr1⟩, ⟨hgi, hg0, hg1⟩, ⟨hbi, hb0, hb1⟩⟩
  · exact ⟨isByte_zero, isByte_floor hl0 hl1, isByte_zero⟩
  · refine ⟨isByte_floor hl0 hl1, isByte_floor ?_ ?_, isByte_zero⟩ <;> nlinarith
  · refine ⟨isByte_zero, isByte_floor ?_ ?_, isByte_floor hl0 hl1⟩ <;> nlinarith
  · refine ⟨isByte_floor hl0 hl1, isByte_floor ?_ ?_, isByte_zero⟩ <;> nlinarith
  · refine ⟨isByte_floor ?_ ?_, isByte_floor ?_ ?_, isByte_floor hl0 hl1⟩ <;> nlinarith
  · refine ⟨isByte_floor ?_ ?_, isByte_floor ?_ ?_, isByte_floor hl0 hl1⟩ <;> nlinarith
  · exact ⟨isByte_floor hl0 hl1, isByte_floor hl0 hl1, isByte_floor hl0 hl1⟩

/-- C7 (witness): the `matrix` palette on a solid-white pixel. -/
theorem palette_outputs_byte_range_witness :
    IsByte (paletteMatrix 255 255 255).r ∧
      IsByte (paletteMatrix 255 255 255).g ∧
      IsByte (paletteMatrix 255 255 255).b :=
  palette_outputs_byte_range "matrix" paletteMatrix (by simp [colorPalettes]) 255 255 255
    ⟨255, by norm_num⟩ ⟨255, by norm_num⟩ ⟨255, by norm_num⟩
    (by norm_num) (by norm_num) (by norm_num) (by norm_num)
    (by norm_num) (by norm_num)

/-! ## Conversion pipeline lemmas -/

lemma adjustedPx_inRange {brightness contrast : ℚ} {px : ℕ → ℕ → RGBA}
    (hpx : ∀ x y, (px x y).InRange) (x y : ℕ) :
    (adjustedPx brightness contrast px x y).InRange := by
  have h := hpx x y
  unfold RGBA.InRange at h ⊢
  obtain ⟨_, _, _, _, _, _, ha0, ha1⟩ := h
  by_cases hc : brightness ≠ 0 ∨ contrast ≠ 0
  · simp only [adjustedPx, if_pos hc]
    exact ⟨bcChannel_nonneg _ _ _, bcChannel_le _ _ _, bcChannel_nonneg _ _ _,
      bcChannel_le _ _ _, bcChannel_nonneg _ _ _, bcChannel_le _ _ _, ha0, ha1⟩
  · simp only [adjustedPx, if_neg hc]
    exact hpx x y

lemma cellChar_length {key : String} {set : List String}
    (hset : charSets key = some set) (inv : Bool) {p : RGBA}
    (hp : p.InRange) : (cellChar set inv p).length = 1 := by
  obtain ⟨hL, hone⟩ := charSets_entries hset
  unfold RGBA.InRange at hp
  obtain ⟨hr0, hr1, hg0, hg1, hb0, hb1, _, _⟩ := hp
  exact hone _ (charAt_mem (charIndex_nonneg hL inv hr0 hr1 hg0 hg1 hb0 hb1)
    (charIndex_lt hL inv hr0 hr1 hg0 hg1 hb0 hb1))

lemma asciiRowString_length {key : String} {set : List String}
    (hset : charSets key = some set) (inv : Bool) {px : ℕ → ℕ → RGBA}
    (hpx : ∀ x y, (px x y).InRange) (y : ℕ) :
    ∀ w, (asciiRowString set inv px y w).length = w
  | 0 => rfl
  | w + 1 => by
      show (asciiRowString set inv px y w ++ cellChar set inv (px w y)).length
        = w + 1
      rw [String.length_append, asciiRowString_length hset inv hpx y w,
        cellChar_length hset inv (hpx w y)]

/-! ## Grid shape (C1) -/

/-- C1 (counterexample): for a 10×1 image with `outputWidth = 5` the
target height `floor(1 × 5 / 10)` is 0, and instead of producing a
one-row grid the conversion throws (`getImageData` on a zero-height
canvas raises an `IndexSizeError`): there is no minimum of one row. -/
theorem grid_shape_no_min_row_cex :
    targetHeight 10 1 5 = 0 ∧
      convertImageToASCII (fun _ _ => ⟨0, 0, 0, 255⟩) 10 1
          ⟨5, 0, 0, "simple", false, false, "original"⟩
        = Except.error JsError.indexSizeError := by
  have h : targetHeight 10 1 5 = 0 := by norm_num [targetHeight]
  exact ⟨h, by simp [convertImageToASCII, h]⟩

/-- C1 (amended): whenever the image and options are valid and the
target height `floor(H × OW / W)` is at least 1, the conversion
succeeds and the glyph grid has exactly that many rows — there is no
minimum-1 guard, the zero case instead throws — and every row has
exactly `outputWidth` cells (both in the ascii text and in the colour
grid). -/
theorem grid_shape (px : ℕ → ℕ → RGBA) (imageWidth imageHeight : ℕ)
    (o : Options) (set : List String)
    (hset : charSets o.charSetKey = some set)
    (hpx : ∀ x y, (px x y).InRange)
    (hOW : 1 ≤ o.outputWidth)
    (hTH : 1 ≤ targetHeight imageWidth imageHeight o.outputWidth) :
    targetHeight imageWidth imageHeight o.outputWidth
        = (⌊(imageHeight : ℚ) * (o.outputWidth : ℚ) / (imageWidth : ℚ)⌋).toNat ∧
    (∃ res, convertImageToASCII px imageWidth imageHeight o = Except.ok res) ∧
    (asciiRows set o.isInverted (adjustedPx o.brightness o.contrast px)
        o.outputWidth (targetHeight imageWidth imageHeight o.outputWidth)).length
      = targetHeight imageWidth imageHeight o.outputWidth ∧
    (∀ row ∈ asciiRows set o.isInverted (adjustedPx o.brightness o.contrast px)
        o.outputWidth (targetHeight imageWidth imageHeight o.outputWidth),
      row.length = o.outputWidth) ∧
    (colorRows o.colorPalette set o.isInverted
        (adjustedPx o.brightness o.contrast px)
        o.outputWidth (targetHeight imageWidth imageHeight o.outputWidth)).length
      = targetHeight imageWidth imageHeight o.outputWidth ∧
    (∀ row ∈ colorRows o.colorPalette set o.isInverted
        (adjustedPx o.brightness o.contrast px)
        o.outputWidth (targetHeight imageWidth imageHeight o.outputWidth),
      row.length = o.outputWidth) := by
  have hz : ¬(o.outputWidth = 0 ∨
      targetHeight imageWidth imageHeight o.outputWidth = 0) := by omega
  refine ⟨?_, ?_, ?_, ?_, ?_, ?_⟩
  · unfold targetHeight
    rw [mul_div_assoc]
  · refine ⟨⟨asciiText set o.isInverted (adjustedPx o.brightness o.contrast px)
      o.outputWidth (targetHeight imageWidth imageHeight o.outputWidth),
      if o.isColorMode then
        some (colorRows o.colorPalette set o.isInverted
          (adjustedPx o.brightness o.contrast px)
          o.outputWidth (targetHeight imageWidth imageHeight o.outputWidth))
      else none⟩, ?_⟩
    simp [convertImageToASCII, hz, hset]
  · simp [asciiRows]
  · intro row hrow
    simp only [asciiRows, List.mem_map, List.mem_range] at hrow
    obtain ⟨y, _, rfl⟩ := hrow
    exact asciiRowString_length hset o.isInverted
      (adjustedPx_inRange hpx) y o.outputWidth
  · simp [colorRows]
  · intro row hrow
    simp only [colorRows, List.mem_map, List.mem_range] at hrow
    obtain ⟨y, _, rfl⟩ := hrow
    simp

/-- C1 (witness): concrete instance on a 1×1 image with
`outputWidth = 1` and the `simple` character set. -/
theorem grid_shape_witness :
    targetHeight 1 1 1 = (⌊(1 : ℚ) * (1 : ℚ) / (1 : ℚ)⌋).toNat ∧
    (∃ res, convertImageToASCII (fun _ _ => ⟨0, 0, 0, 255⟩) 1 1
        ⟨1, 0, 0, "simple", false, false, "original"⟩ = Except.ok res) ∧
    (asciiRows ["@", "*", ".", " "] false
        (adjustedPx 0 0 (fun _ _ => ⟨0, 0, 0, 255⟩)) 1
        (targetHeight 1 1 1)).length = targetHeight 1 1 1 ∧
    (∀ row ∈ asciiRows ["@", "*", ".", " "] false
        (adjustedPx 0 0 (fun _ _ => ⟨0, 0, 0, 255⟩)) 1 (targetHeight 1 1 1),
      row.length = 1) ∧
    (colorRows "original" ["@", "*", ".", " "] false
        (adjustedPx 0 0 (fun _ _ => ⟨0, 0, 0, 255⟩)) 1
        (targetHeight 1 1 1)).length = targetHeight 1 1 1 ∧
    (∀ row ∈ colorRows "original" ["@", "*", ".", " "] false
        (adjustedPx 0 0 (fun _ _ => ⟨0, 0, 0, 255⟩)) 1 (targetHeight 1 1 1),
      row.length = 1) :=
  grid_shape (fun _ _ => ⟨0, 0, 0, 255⟩) 1 1
    ⟨1, 0, 0, "simple", false, false, "original"⟩ ["@", "*", ".", " "]
    (by decide)
    (fun _ _ => by unfold RGBA.InRange; norm_num)
    (by norm_num) (by norm_num [targetHeight])

/-! ## Error handling (C5) -/

/-- C5 (counterexample): an unknown colour-palette key does not abort
the conversion: with palette key `"bogus"` (and everything else valid)
`convertImageToASCII` succeeds and returns a complete grid, silently
falling back to the `original` palette. -/
theorem unknown_palette_no_error_cex :
    colorPalettes "bogus" = none ∧
      convertImageToASCII (fun _ _ => ⟨0, 0, 0, 255⟩) 1 1
          ⟨1, 0, 0, "simple", true, false, "bogus"⟩
        = Except.ok (⟨"@\n", some [[⟨"@", 0, 0, 0⟩]]⟩ : ConvertResult) := by
  refine ⟨by simp [colorPalettes], ?_⟩
  have hth : targetHeight 1 1 1 = 1 := by norm_num [targetHeight]
  have hci : charIndex 4 false 0 0 0 = 0 := by norm_num [charIndex, luminance]
  simp [convertImageToASCII, hth, charSets, asciiText, asciiRows, asciiRowString,
    cellChar, charAt, hci, colorRows, paletteLookup, colorPalettes,
    paletteOriginal, adjustedPx, List.range_succ, String.join]

/-- C5 (amended): `convertImageToASCII` performs no explicit input
validation.  A zero `outputWidth` or a zero target height surfaces as
a synchronous `IndexSizeError` from `getImageData` (no partial grid);
a nonempty canvas with an unknown character-set key surfaces as a
synchronous `TypeError` (reading `.length` of `undefined`); and for
any known character set the conversion succeeds regardless of the
colour-palette key — an unknown palette key is silently replaced by
`original` rather than rejected. -/
theorem conversion_error_behaviour (px : ℕ → ℕ → RGBA)
    (imageWidth imageHeight : ℕ) (o : Options) :
    (o.outputWidth = 0 ∨ targetHeight imageWidth imageHeight o.outputWidth = 0 →
      convertImageToASCII px imageWidth imageHeight o
        = Except.error JsError.indexSizeError) ∧
    (¬(o.outputWidth = 0 ∨ targetHeight imageWidth imageHeight o.outputWidth = 0) →
      charSets o.charSetKey = none →
      convertImageToASCII px imageWidth imageHeight o
        = Except.error JsError.typeError) ∧
    (¬(o.outputWidth = 0 ∨ targetHeight imageWidth imageHeight o.outputWidth = 0) →
      ∀ set, charSets o.charSetKey = some set →
      ∃ res, convertImageToASCII px imageWidth imageHeight o = Except.ok res) := by
  refine ⟨?_, ?_, ?_⟩
  · intro hz
    simp [convertImageToASCII, hz]
  · intro hz hcs
    simp [convertImageToASCII, hz, hcs]
  · intro hz set hcs
    refine ⟨⟨asciiText set o.isInverted (adjustedPx o.brightness o.contrast px)
        o.outputWidth (targetHeight imageWidth imageHeight o.outputWidth),
      if o.isColorMode then
        some (colorRows o.colorPalette set o.isInverted
          (adjustedPx o.brightness o.contrast px)
          o.outputWidth (targetHeight imageWidth imageHeight o.outputWidth))
      else none⟩, ?_⟩
    simp [convertImageToASCII, hz, hcs]

/-- C5 (witness): concrete instances of the three behaviours: zero
output width errors, an unknown character-set key errors, and a valid
character set converts successfully. -/
theorem conversion_error_behaviour_witness :
    convertImageToASCII (fun _ _ => ⟨0, 0, 0, 255⟩) 1 1
        ⟨0, 0, 0, "simple", false, false, "original"⟩
      = Except.error JsError.indexSizeError ∧
    convertImageToASCII (fun _ _ => ⟨0, 0, 0, 255⟩) 1 1
        ⟨1, 0, 0, "nope", false, false, "original"⟩
      = Except.error JsError.typeError ∧
    ∃ res, convertImageToASCII (fun _ _ => ⟨0, 0, 0, 255⟩) 1 1
        ⟨1, 0, 0, "simple", false, false, "original"⟩ = Except.ok res := by
  have h1 := (conversion_error_behaviour (fun _ _ => ⟨0, 0, 0, 255⟩) 1 1
    ⟨0, 0, 0, "simple", false, false, "original"⟩).1 (Or.inl rfl)
  have h2 := (conversion_error_behaviour (fun _ _ => ⟨0, 0, 0, 255⟩) 1 1
    ⟨1, 0, 0, "nope", false, false, "original"⟩).2.1
    (by norm_num [targetHeight]) (by decide)
  have h3 := (conversion_error_behaviour (fun _ _ => ⟨0, 0, 0, 255⟩) 1 1
    ⟨1, 0, 0, "simple", false, false, "original"⟩).2.2
    (by norm_num [targetHeight]) ["@", "*", ".", " "] (by decide)
  exact ⟨h1, h2, h3⟩

/-! ## Palette independence in monochrome mode (C10) -/

/-- C10: when `isColorMode` is `false` the conversion result is
independent of the colour-palette option — two runs differing only in
the palette key return identical results — and the returned
`colorData` is `none`. -/
theorem mono_palette_independent (px : ℕ → ℕ → RGBA)
    (imageWidth imageHeight : ℕ) (o : Options) (p1 p2 : String)
    (h : o.isColorMode = false) :
    convertImageToASCII px imageWidth imageHeight { o with colorPalette := p1 }
      = convertImageToASCII px imageWidth imageHeight
          { o with colorPalette := p2 } ∧
    ∀ res, convertImageToASCII px imageWidth imageHeight
        { o with colorPalette := p1 } = Except.ok res →
      res.colorData = none := by
  by_cases hz : o.outputWidth = 0 ∨
      targetHeight imageWidth imageHeight o.outputWidth = 0
  · constructor
    · simp [convertImageToASCII, hz]
    · intro res hres
      simp [convertImageToASCII, hz] at hres
  · rcases hcs : charSets o.charSetKey with _ | set
    · constructor
      · simp [convertImageToASCII, hz, hcs]
      · intro res hres
        simp [convertImageToASCII, hz, hcs] at hres
    · constructor
      · simp [convertImageToASCII, hz, hcs, h]
      · intro res hres
        simp [convertImageToASCII, hz, hcs, h] at hres
        rw [← hres]

/-- C10 (witness): concrete monochrome conversion with palette keys
`"matrix"` and `"fire"`. -/
theorem mono_palette_independent_witness :
    convertImageToASCII (fun _ _ => ⟨7, 8, 9, 255⟩) 2 2
        { (⟨2, 1, 2, "dense", false, true, "original"⟩ : Options) with
            colorPalette := "matrix" }
      = convertImageToASCII (fun _ _ => ⟨7, 8, 9, 255⟩) 2 2
          { (⟨2, 1, 2, "dense", false, true, "original"⟩ : Options) with
              colorPalette := "fire" } ∧
    ∀ res, convertImageToASCII (fun _ _ => ⟨7, 8, 9, 255⟩) 2 2
        { (⟨2, 1, 2, "dense", false, true, "original"⟩ : Options) with
            colorPalette := "matrix" } = Except.ok res →
      res.colorData = none :=
  mono_palette_independent (fun _ _ => ⟨7, 8, 9, 255⟩) 2 2
    ⟨2, 1, 2, "dense", false, true, "original"⟩ "matrix" "fire" rfl

end AsciiVision
